import Mathlib

/-!
Verification of the cascade / override-resolution engine of the
eleventy-base-blog-template repository.

Paths are modelled as lists of segments of an absolute path.  The semantics
of Node's path.join (concatenation followed by normalization of "." , ".."
and empty segments) is captured by `normStack` / `joinPath`.  The filesystem
is modelled as an oracle `Fs` (existsSync / readdirSync / readFileSync);
`FsState` is a concrete mutable filesystem used for the code that writes
(mergeDataFiles).  JS `Map` objects and plain objects used as dictionaries
are modelled as association lists with in-place replacement (`setKV`),
matching `Map.set` insertion-order semantics.
-/

namespace Themer

/-- Character-level splitter behind `splitPath` (structural recursion so
that concrete paths evaluate definitionally). -/
def splitSegs (acc : List Char) : List Char → List String
  | [] => [String.mk acc.reverse]
  | c :: rest =>
    if c = '/' then String.mk acc.reverse :: splitSegs [] rest
    else splitSegs (c :: acc) rest

/-- Split a path string into raw segments on the separator
(the semantics of `String.splitOn "/"`). -/
def splitPath (s : String) : List String := splitSegs [] s.data

/-- `String.endsWith`, char-list based. -/
def strEndsWith (s suffix : String) : Bool :=
  List.isSuffixOf suffix.data s.data

/-- Path-normalization of an absolute path, accumulator style.
`stack` holds already-emitted segments in reverse order; "." and empty
segments are dropped, ".." pops the previous segment (at the root it is
dropped, as Node does for absolute paths). -/
def normStack (stack : List String) : List String → List String
  | [] => stack
  | seg :: rest =>
    if seg = "" ∨ seg = "." then normStack stack rest
    else if seg = ".." then
      match stack with
      | [] => normStack [] rest
      | _ :: t => normStack t rest
    else normStack (seg :: stack) rest

/-- Normalized form of an absolute path given as raw segments. -/
def normPath (segs : List String) : List String := (normStack [] segs).reverse

/-- Node `path.join(base, p₁, p₂, …)` for an absolute `base` already given
as segments: split each further part on the separator and normalize. -/
def joinPath (base : List String) (parts : List String) : List String :=
  normPath (base ++ (parts.map splitPath).flatten)

/-- Render a normalized absolute path back to a string. -/
def renderPath (segs : List String) : String :=
  "/" ++ String.intercalate "/" segs

/-- A segment survives normalization (it is neither empty nor "."). -/
def keepSeg (x : String) : Bool := !(x == "" || x == ".")

/-- `p` starts with the segments of `root`. -/
def startsWithSegs : List String → List String → Bool
  | [], _ => true
  | _ :: _, [] => false
  | a :: as, b :: bs => a == b && startsWithSegs as bs

/-- JS `a || b` on an optional string: `null` and the empty string fall
back to the default. -/
def jsOrD (a : Option String) (b : String) : String :=
  match a with
  | some s => if s = "" then b else s
  | none => b

/-- `hay` contains `needle` as a substring. -/
def ContainsStr (hay needle : String) : Prop :=
  ∃ a b, hay = a ++ (needle ++ b)

/-- Decidable substring check on the underlying character lists. -/
def listHasSub (needle : List Char) : List Char → Bool
  | [] => needle.isEmpty
  | c :: rest => List.isPrefixOf needle (c :: rest) || listHasSub needle rest

/-- Boolean substring check on strings. -/
def strHasSub (hay needle : String) : Bool :=
  listHasSub needle.data hay.data

/- ### Association lists: the model of JS `Map` / object dictionaries -/

/-- First-occurrence lookup in an association list. -/
def lookupKV {κ α : Type} [DecidableEq κ] : List (κ × α) → κ → Option α
  | [], _ => none
  | (k, v) :: rest, key => if k = key then some v else lookupKV rest key

/-- `Map.set`: replace the first binding of `key` in place, else append. -/
def setKV {κ α : Type} [DecidableEq κ] : List (κ × α) → κ → α → List (κ × α)
  | [], key, v => [(key, v)]
  | (k, w) :: rest, key, v =>
    if k = key then (key, v) :: rest else (k, w) :: setKV rest key v

/- ### Filesystem oracle and shared value types -/

/-- Read-only filesystem oracle: `readdirSync` is `none` when the directory
read raises (permissions), `readFileSync` is `none` when the file read
raises. -/
structure Fs where
  existsSync : List String → Bool
  readdirSync : List String → Option (List String)
  readFileSync : List String → Option String

/-- Well-formed filesystem: a successful directory listing has no duplicate
names. -/
def Fs.WF (fs : Fs) : Prop :=
  ∀ d l, fs.readdirSync d = some l → l.Nodup

/-- A directory is absent or unreadable on the oracle. -/
def dirAbsent (fs : Fs) (d : List String) : Prop :=
  fs.existsSync d = false ∨ fs.readdirSync d = none

/-- Provenance tag of a resolved resource. -/
inductive Source
  | user
  | theme
  | override
deriving DecidableEq, Repr

/-- The five/six managed resource classes (string keys in the source). -/
inductive ResourceType
  | layouts
  | features
  | styles
  | scripts
  | data
  | public
deriving DecidableEq, Repr

/-- The JS string key of a resource type. -/
def ResourceType.jsName : ResourceType → String
  | .layouts => "layouts"
  | .features => "features"
  | .styles => "styles"
  | .scripts => "scripts"
  | .data => "data"
  | .public => "public"

/-- Override-path configuration: a partial map from resource type to a
repository-relative directory (JS object, absent keys are `undefined`). -/
def OverrideCfg : Type := ResourceType → Option String

/-- The empty configuration (`{}` in the source). -/
def emptyCfg : OverrideCfg := fun _ => none

/-- A configuration binding a single resource type. -/
def oneCfg (rt : ResourceType) (dir : String) : OverrideCfg :=
  fun rt' => if rt' = rt then some dir else none

/-- `{ path, source }` result object of `resolveResource`. -/
structure Resolved where
  path : List String
  source : Source
deriving DecidableEq, Repr

/-- `{ name, source, path }` catalog entry of `scanWithCascade`. -/
structure Entry where
  name : String
  source : Source
  path : List String
deriving DecidableEq, Repr

namespace Core

/-- `DEFAULT_OVERRIDE_PATHS` from `packages/core/lib/defaults.mjs`. -/
def DEFAULT_OVERRIDE_PATHS : ResourceType → String
  | .layouts => "overrides/layouts"
  | .features => "overrides/features"
  | .styles => "overrides/styles"
  | .scripts => "overrides/scripts"
  | .data => "content/_data"
  | .public => "public"

/-- `THEME_RESOURCE_PATHS` from `packages/core/lib/cascade/resolver.mjs`
(the `|| resourceType` fallback never fires on the six known keys). -/
def THEME_RESOURCE_PATHS : ResourceType → String
  | .layouts => "layouts"
  | .features => "features"
  | .styles => "styles"
  | .scripts => "scripts"
  | .data => "data"
  | .public => "public"

/-- `getThemeRoot(projectRoot, themeName)`. -/
def getThemeRoot (projectRoot : List String) (themeName : String) :
    List String :=
  joinPath projectRoot ["node_modules", themeName]

/-- `getOverridePath(resolvedOverridePaths, key)`:
`resolvedOverridePaths?.[key] || DEFAULT_OVERRIDE_PATHS[key]`. -/
def getOverridePath (cfg : OverrideCfg) (key : ResourceType) : String :=
  jsOrD (cfg key) (DEFAULT_OVERRIDE_PATHS key)

/-- `{ user, theme, userDir, themeDir }` result of `buildPaths`. -/
structure Paths where
  user : List String
  theme : List String
  userDir : List String
  themeDir : List String
deriving DecidableEq, Repr

/-- `buildPaths(projectRoot, themeName, resolvedOverridePaths, resourceType,
filename = '')` from `packages/core/lib/cascade/resolver.mjs`. -/
def buildPaths (projectRoot : List String) (themeName : String)
    (cfg : OverrideCfg) (resourceType : ResourceType)
    (filename : String := "") : Paths :=
  let userDir := getOverridePath cfg resourceType
  let themeDir := THEME_RESOURCE_PATHS resourceType
  let themeRoot := getThemeRoot projectRoot themeName
  { user := joinPath projectRoot [userDir, filename]
    theme := joinPath themeRoot [themeDir, filename]
    userDir := joinPath projectRoot [userDir]
    themeDir := joinPath themeRoot [themeDir] }

/-- The default not-found message thrown by `resolveResource` when
`throwOnMissing` is set and no custom message is passed. -/
def notFoundMessage (filename : String) (resourceType : ResourceType)
    (p : Paths) : String :=
  "Resource \"" ++ filename ++ "\" not found in " ++ resourceType.jsName
    ++ "\nChecked:\n  - " ++ renderPath p.user
    ++ "\n  - " ++ renderPath p.theme

/-- The options object of `resolveResource`. -/
structure ResolveOptions where
  projectRoot : List String
  themeName : String
  resolvedOverridePaths : OverrideCfg := emptyCfg
  resourceType : ResourceType
  filename : String
  throwOnMissing : Bool := false
  errorMessage : Option String := none

/-- The candidate paths computed inside `resolveResource`. -/
def ResolveOptions.paths (o : ResolveOptions) : Paths :=
  buildPaths o.projectRoot o.themeName o.resolvedOverridePaths
    o.resourceType o.filename

/-- `resolveResource` from `packages/core/lib/cascade/resolver.mjs`:
user path first, then theme path, then null or throw. A thrown `Error` is
an `Except.error` carrying the message. -/
def resolveResource (fs : Fs) (o : ResolveOptions) :
    Except String (Option Resolved) :=
  let paths := o.paths
  if fs.existsSync paths.user then
    .ok (some { path := paths.user, source := .user })
  else if fs.existsSync paths.theme then
    .ok (some { path := paths.theme, source := .theme })
  else if o.throwOnMissing then
    .error (jsOrD o.errorMessage
      (notFoundMessage o.filename o.resourceType paths))
  else
    .ok none

/-- `scanDirectory(dirPath, filter)`: empty when the directory is missing,
empty when `readdirSync` raises, otherwise the filtered listing. -/
def scanDirectory (fs : Fs) (dirPath : List String)
    (filter : String → Bool) : List String :=
  if fs.existsSync dirPath then
    match fs.readdirSync dirPath with
    | some entries => entries.filter filter
    | none => []
  else []

/-- The options object of `scanWithCascade`. -/
structure ScanOptions where
  projectRoot : List String
  themeName : String
  resolvedOverridePaths : OverrideCfg := emptyCfg
  resourceType : ResourceType
  filter : String → Bool := fun _ => true

/-- The paths computed inside `scanWithCascade` (no filename). -/
def ScanOptions.paths (o : ScanOptions) : Paths :=
  buildPaths o.projectRoot o.themeName o.resolvedOverridePaths o.resourceType

/-- Entry stored by the theme pass of `scanWithCascade`:
`{ name: file, source: 'theme', path: path.join(paths.themeDir, file) }`. -/
def themePassEntry (themeDir : List String) (file : String) : Entry :=
  { name := file, source := .theme, path := joinPath themeDir [file] }

/-- Entry stored by the user pass of `scanWithCascade`:
`{ name: file, source: isOverride ? 'override' : 'user',
path: path.join(paths.userDir, file) }`. -/
def userPassEntry (userDir : List String) (file : String)
    (isOverride : Bool) : Entry :=
  { name := file
    source := if isOverride then .override else .user
    path := joinPath userDir [file] }

/-- `scanWithCascade` from `packages/core/lib/cascade/resolver.mjs`:
theme pass (tag `theme`), then user pass (tag `user`, or `override` when
the name is already present). The JS `Map` is an association list. -/
def scanWithCascade (fs : Fs) (o : ScanOptions) : List (String × Entry) :=
  (scanDirectory fs o.paths.userDir o.filter).foldl
    (fun items file =>
      setKV items file (userPassEntry o.paths.userDir file
        (lookupKV items file).isSome))
    ((scanDirectory fs o.paths.themeDir o.filter).foldl
      (fun items file =>
        setKV items file (themePassEntry o.paths.themeDir file))
      [])

end Core

/-!
The `Lib` namespace embeds the metadata-based variant of the cascade
(`src/lib/cascade/*.mjs`, `src/utils/validate.mjs` and the theme metadata
module).  Its resolver is textually the core resolver with the theme name
and directory conventions taken from the `metadata` object instead of
parameters.
-/
namespace Lib

/-- The fields of the theme `metadata` object used by the cascade layer
(`partials` and the publishing lists are not consumed by it). -/
structure Metadata where
  name : String
  paths : ResourceType → String
  defaultOverridePaths : ResourceType → String
  features : List String

/-- The `metadata` object of the theme metadata module. -/
def metadata : Metadata where
  name := "eleventy-base-blog-template"
  paths := fun rt => match rt with
    | .layouts => "layouts"
    | .features => "features"
    | .styles => "styles"
    | .scripts => "scripts"
    | .data => "data"
    | .public => "public"
  defaultOverridePaths := fun rt => match rt with
    | .layouts => "overrides/layouts"
    | .features => "overrides/features"
    | .styles => "overrides/styles"
    | .scripts => "overrides/scripts"
    | .data => "content/_data"
    | .public => "public"
  features := ["code-highlighting"]

/-- `getOverridePath(overridePaths, key)` of the lib resolver. -/
def getOverridePath (cfg : OverrideCfg) (key : ResourceType) : String :=
  jsOrD (cfg key) (metadata.defaultOverridePaths key)

/-- `buildPaths(projectRoot, overridePaths, resourceType, filename)` of the
lib resolver: conventions read from `metadata`. -/
def buildPaths (projectRoot : List String) (cfg : OverrideCfg)
    (resourceType : ResourceType) (filename : String := "") : Core.Paths :=
  let userDir := getOverridePath cfg resourceType
  let themeDir := metadata.paths resourceType
  let themeRoot := joinPath projectRoot ["node_modules", metadata.name]
  { user := joinPath projectRoot [userDir, filename]
    theme := joinPath themeRoot [themeDir, filename]
    userDir := joinPath projectRoot [userDir]
    themeDir := joinPath themeRoot [themeDir] }

/-- Options object of the lib `resolveResource` (no theme name field). -/
structure ResolveOptions where
  projectRoot : List String
  overridePaths : OverrideCfg := emptyCfg
  resourceType : ResourceType
  filename : String
  throwOnMissing : Bool := false
  errorMessage : Option String := none

/-- `resolveResource` of the lib resolver: same user-first priority as the
core one, paths computed through `metadata`. -/
def resolveResource (fs : Fs) (o : ResolveOptions) :
    Except String (Option Resolved) :=
  let paths := buildPaths o.projectRoot o.overridePaths o.resourceType
    o.filename
  if fs.existsSync paths.user then
    .ok (some { path := paths.user, source := .user })
  else if fs.existsSync paths.theme then
    .ok (some { path := paths.theme, source := .theme })
  else if o.throwOnMissing then
    .error (jsOrD o.errorMessage
      (Core.notFoundMessage o.filename o.resourceType paths))
  else
    .ok none

/-- Options object of the lib `scanWithCascade`. -/
structure ScanOptions where
  projectRoot : List String
  overridePaths : OverrideCfg := emptyCfg
  resourceType : ResourceType
  filter : String → Bool := fun _ => true

/-- The paths computed inside the lib `scanWithCascade` (no filename). -/
def ScanOptions.paths (o : ScanOptions) : Core.Paths :=
  buildPaths o.projectRoot o.overridePaths o.resourceType

/-- `scanWithCascade` of the lib resolver; `scanDirectory` and the two pass
entries are textually the same as the core ones and are shared. -/
def scanWithCascade (fs : Fs) (o : ScanOptions) : List (String × Entry) :=
  (Core.scanDirectory fs o.paths.userDir o.filter).foldl
    (fun items file =>
      setKV items file (Core.userPassEntry o.paths.userDir file
        (lookupKV items file).isSome))
    ((Core.scanDirectory fs o.paths.themeDir o.filter).foldl
      (fun items file =>
        setKV items file (Core.themePassEntry o.paths.themeDir file))
      [])

/-- `path.basename(filename, '.js')`: last path component with a trailing
`.js` stripped (Node keeps the name when it equals the extension). -/
def basenameStripJs (filename : String) : String :=
  let base := ((splitPath filename).getLast?).getD ""
  if strEndsWith base ".js" ∧ base ≠ ".js" then base.dropRight 3 else base

/-- `getAvailableFeatures(projectRoot, overridePaths)` from
`lib/cascade/features.mjs`: cascade scan of the features directories with a
`.js` filter, names re-keyed without the extension. -/
def getAvailableFeatures (fs : Fs) (projectRoot : List String)
    (cfg : OverrideCfg) : List (String × Entry) :=
  let features := scanWithCascade fs
    { projectRoot := projectRoot, overridePaths := cfg
      resourceType := .features
      filter := fun file => strEndsWith file ".js" }
  features.foldl
    (fun result p =>
      setKV result (basenameStripJs p.1) { p.2 with name := basenameStripJs p.1 })
    []

/-- `createFeatureErrorMessage(featureName, overridePaths)` from
`lib/cascade/features.mjs` (braces, asterisks and quotes written with
character escapes). -/
def createFeatureErrorMessage (featureName : String) (cfg : OverrideCfg) :
    String :=
  let availableFeatures :=
    if metadata.features.length > 0
    then String.intercalate ", " metadata.features
    else "none"
  let userFeatureDir := jsOrD (cfg .features)
    (metadata.defaultOverridePaths .features)
  "Feature \"" ++ featureName ++ "\" not found.\n\n"
    ++ "Available theme features: " ++ availableFeatures ++ "\n\n"
    ++ "To create a custom feature:\n"
    ++ "  1. Add file: " ++ userFeatureDir ++ "/" ++ featureName ++ ".js\n\n"
    ++ "To extend a theme feature:\n"
    ++ "  import \x7b init \x7d from \x27@theme/features/" ++ featureName
    ++ ".js\x27;\n"
    ++ "  init(\x7b /\x2a custom config \x2a/ \x7d);\n"

/-- `resolveFeaturePath(featureName, projectRoot, overridePaths)` from
`lib/cascade/features.mjs`: strict resolution of `featureName + ".js"` in
the features cascade with the custom error message.  The `.ok none` branch
is unreachable (`throwOnMissing` is set); in JS reading `.path` of `null`
would raise a TypeError. -/
def resolveFeaturePath (fs : Fs) (featureName : String)
    (projectRoot : List String) (cfg : OverrideCfg) :
    Except String (List String) :=
  match resolveResource fs
    { projectRoot := projectRoot, overridePaths := cfg
      resourceType := .features
      filename := featureName ++ ".js"
      throwOnMissing := true
      errorMessage := some (createFeatureErrorMessage featureName cfg) } with
  | .ok (some result) => .ok result.path
  | .ok none => .error "TypeError: Cannot read properties of null"
  | .error e => .error e

/-- `getFeatureEntries(projectRoot, overridePaths)` from the lib Vite
helper: a fixed `main` entry pointing at the user script entry point, then
one entry per discovered feature keyed by its bare name. -/
def getFeatureEntries (fs : Fs) (projectRoot : List String)
    (cfg : OverrideCfg) : List (String × List String) :=
  let scriptsPath := jsOrD (cfg .scripts)
    (metadata.defaultOverridePaths .scripts)
  let entries : List (String × List String) :=
    [("main", joinPath projectRoot [scriptsPath, "main.js"])]
  (getAvailableFeatures fs projectRoot cfg).foldl
    (fun es p => setKV es p.1 p.2.path) entries

/- ### `validateTheme` from `src/utils/validate.mjs` -/

/-- `{ errors, warnings, isValid }` result of `validateTheme`. -/
structure ValidationResult where
  errors : List String
  warnings : List String
  isValid : Bool
deriving DecidableEq, Repr

/-- Fatal message: theme package directory missing. -/
def themeNotFoundMsg (themeRoot : List String) : String :=
  "Theme package not found at: " ++ renderPath themeRoot
    ++ "\n  Did you run \x27npm install " ++ metadata.name ++ "\x27?"

/-- Error message: a required theme directory is missing. -/
def missingThemeDirMsg (dir : String) (fullPath : List String) : String :=
  "Missing required theme directory: " ++ dir
    ++ "\n  Expected at: " ++ renderPath fullPath
    ++ "\n  This may indicate a corrupted theme installation."

/-- Warning: user script entry point absent. -/
def noEntryPointMsg (scriptsPath : String) : String :=
  "No entry point found at " ++ scriptsPath ++ "/main.js"
    ++ "\n  Create this file to add site-specific JavaScript.\n  Example:\n"
    ++ "    // " ++ scriptsPath ++ "/main.js\n"
    ++ "    console.log(\x27Site loaded\x27);\n"

/-- Warning: deprecated `theme.config.mjs` present. -/
def deprecatedMjsMsg : String :=
  "Found deprecated theme.config.mjs\n  This file is no longer needed in v2."
    ++ "\n  Theme metadata is now self-describing."
    ++ "\n  You can safely delete this file."

/-- Warning: deprecated `theme.config.js` present. -/
def deprecatedJsMsg : String :=
  "Found deprecated theme.config.js\n  This file is no longer needed in v2."
    ++ "\n  You can safely delete this file."

/-- Warning: legacy manual theme import statements in the entry point. -/
def manualImportMsg (scriptsPath : String) : String :=
  "Found manual theme imports in " ++ scriptsPath ++ "/main.js"
    ++ "\n  Theme v2 auto-imports styles and scripts."
    ++ "\n  You can remove these \x69mport statements:"
    ++ "\n    - \x69mport \x27" ++ metadata.name ++ "/styles/...\x27;"
    ++ "\n    - \x69mport \x27" ++ metadata.name ++ "/scripts/...\x27;"
    ++ "\n  They are now automatically included by the build system."

/-- Warning: recommended user layouts directory absent. -/
def noLayoutsDirMsg (layoutsPath : String) : String :=
  "No layouts directory found at " ++ layoutsPath ++ "/"
    ++ "\n  Create this directory to override or extend theme layouts."
    ++ "\n  Example:\n    " ++ layoutsPath
    ++ "/post.njk - Override theme\x27s post layout\n    "
    ++ "\x7b% extends \"@theme/layouts/base.njk\" %\x7d"
    ++ " - Extend theme\x27s base layout"

/-- Error: the nunjucks peer dependency is not installed. -/
def nunjucksMissingMsg : String :=
  "Nunjucks not found. This is a required peer dependency."
    ++ "\n  Install it with: npm install nunjucks"

/-- `validateTheme(projectRoot, overridePaths)` from `utils/validate.mjs`:
errors and warnings accumulated in program order,
`isValid = errors.length === 0`; a missing theme package returns
immediately. -/
def validateTheme (fs : Fs) (projectRoot : List String)
    (cfg : OverrideCfg) : ValidationResult :=
  let scriptsPath := jsOrD (cfg .scripts)
    (metadata.defaultOverridePaths .scripts)
  let layoutsPath := jsOrD (cfg .layouts)
    (metadata.defaultOverridePaths .layouts)
  let themeRoot := joinPath projectRoot ["node_modules", metadata.name]
  if fs.existsSync themeRoot = false then
    { errors := [themeNotFoundMsg themeRoot], warnings := []
      isValid := false }
  else
    let requiredThemeDirs := ["layouts", "styles", "scripts"]
    let dirErrors := requiredThemeDirs.filterMap (fun dir =>
      if fs.existsSync (joinPath themeRoot [dir]) then none
      else some (missingThemeDirMsg dir (joinPath themeRoot [dir])))
    let mainEntry := joinPath projectRoot [scriptsPath, "main.js"]
    let entryWarnings :=
      if fs.existsSync mainEntry then [] else [noEntryPointMsg scriptsPath]
    let deprecatedWarnings :=
      (if fs.existsSync (joinPath projectRoot ["theme.config.mjs"])
       then [deprecatedMjsMsg] else []) ++
      (if fs.existsSync (joinPath projectRoot ["theme.config.js"])
       then [deprecatedJsMsg] else [])
    let manualImportWarnings :=
      if fs.existsSync mainEntry then
        let mainContent := (fs.readFileSync mainEntry).getD ""
        let hasManualImport :=
          strHasSub mainContent
            ("\x69mport \x27" ++ metadata.name ++ "/styles") ||
          strHasSub mainContent
            ("\x69mport \x27" ++ metadata.name ++ "/scripts") ||
          strHasSub mainContent
            "\x69mport \x27eleventy-base-blog-template/styles" ||
          strHasSub mainContent
            "\x69mport \x27eleventy-base-blog-template/scripts"
        if hasManualImport then [manualImportMsg scriptsPath] else []
      else []
    let layoutWarnings :=
      if fs.existsSync (joinPath projectRoot [layoutsPath]) then []
      else [noLayoutsDirMsg layoutsPath]
    let nunjucksErrors :=
      if fs.existsSync (joinPath projectRoot ["node_modules", "nunjucks"])
      then [] else [nunjucksMissingMsg]
    let errors := dirErrors ++ nunjucksErrors
    let warnings := entryWarnings ++ deprecatedWarnings
      ++ manualImportWarnings ++ layoutWarnings
    { errors := errors, warnings := warnings, isValid := errors.isEmpty }

/- ### Mutable filesystem model and `mergeDataFiles` from
`src/lib/cascade/data.mjs` -/

/-- Concrete filesystem state: files (path to content) and directories.
This models the one writing operation of the layer. -/
structure FsState where
  files : List (List String × String)
  dirs : List (List String)
deriving DecidableEq, Repr

/-- Name of `p` when it is an immediate child of `dir`. -/
def childName (dir p : List String) : Option String :=
  if startsWithSegs dir p ∧ p.length = dir.length + 1
  then (p.drop dir.length).head? else none

/-- `fs.existsSync` over the concrete state. -/
def FsState.existsSync (st : FsState) (p : List String) : Bool :=
  (lookupKV st.files p).isSome || decide (p ∈ st.dirs)

/-- `fs.readdirSync` over the concrete state: immediate child file and
directory names. -/
def FsState.readdirSync (st : FsState) (dir : List String) : List String :=
  st.files.filterMap (fun fp => childName dir fp.1)
    ++ st.dirs.filterMap (fun d => childName dir d)

/-- `path.dirname`. -/
def dirname (p : List String) : List String := p.dropLast

/-- `fs.mkdirSync(d, { recursive: true })`: create every missing prefix. -/
def mkdirRecursive (st : FsState) (d : List String) : FsState :=
  { st with dirs := st.dirs ++
      (((List.range d.length).map (fun i => d.take (i + 1))).filter
        (fun q => !(decide (q ∈ st.dirs)))) }

/-- `fs.copyFileSync(src, dst)`. -/
def copyFile (st : FsState) (src dst : List String) : FsState :=
  { st with files := setKV st.files dst ((lookupKV st.files src).getD "") }

/-- Body of the `themeDataFiles.forEach` loop of `mergeDataFiles`: copy the
theme data file to the user data directory when the user has no file of
that name. -/
def mergeStep (themeDataPath userDataPath : List String) (s : FsState)
    (file : String) : FsState :=
  let userFile := joinPath userDataPath [file]
  let themeFile := joinPath themeDataPath [file]
  if s.existsSync userFile then s
  else copyFile (mkdirRecursive s (dirname userFile)) themeFile userFile

/-- `mergeDataFiles(projectRoot, overridePaths)` from
`lib/cascade/data.mjs`: returns the updated filesystem state and the
`{ themeDataPath, userDataPath }` pair. -/
def mergeDataFiles (st : FsState) (projectRoot : List String)
    (cfg : OverrideCfg) : FsState × (List String × List String) :=
  let dataDir := jsOrD (cfg .data) (metadata.defaultOverridePaths .data)
  let themeDataPath := joinPath projectRoot
    ["node_modules", metadata.name, metadata.paths .data]
  let userDataPath := joinPath projectRoot [dataDir]
  if st.existsSync themeDataPath = false then
    (st, (themeDataPath, userDataPath))
  else
    let themeDataFiles := st.readdirSync themeDataPath
    (themeDataFiles.foldl (mergeStep themeDataPath userDataPath) st,
      (themeDataPath, userDataPath))

end Lib

/- ### Concrete fixtures used to instantiate the theorems -/

/-- Oracle on which every path exists. -/
def fxUser : Fs where
  existsSync := fun _ => true
  readdirSync := fun _ => none
  readFileSync := fun _ => none

/-- Oracle on which nothing exists and every read fails. -/
def fxNone : Fs where
  existsSync := fun _ => false
  readdirSync := fun _ => none
  readFileSync := fun _ => none

/-- Oracle with data directories on both sides and a collision on
`site.js` (theme package `theme-pkg`). -/
def fxData : Fs where
  existsSync := fun p =>
    decide (p = ["proj", "node_modules", "theme-pkg", "data"]
      ∨ p = ["proj", "content", "_data"])
  readdirSync := fun d =>
    if d = ["proj", "node_modules", "theme-pkg", "data"] then
      some ["site.js", "nav.js"]
    else if d = ["proj", "content", "_data"] then
      some ["site.js", "extra.js"]
    else none
  readFileSync := fun _ => none

/-- Oracle with a user feature literally named `main` next to a theme
feature, for the entry-point resolver. -/
def fxMain : Fs where
  existsSync := fun p =>
    decide (p = ["proj", "overrides", "features"]
      ∨ p = ["proj", "node_modules", "eleventy-base-blog-template", "features"])
  readdirSync := fun d =>
    if d = ["proj", "overrides", "features"] then
      some ["main.js", "gallery.js"]
    else if d = ["proj", "node_modules", "eleventy-base-blog-template",
        "features"] then
      some ["code-highlighting.js"]
    else none
  readFileSync := fun _ => none

/-- Oracle on which only the escaped path `/outside/f.js` exists. -/
def fxOutside : Fs where
  existsSync := fun p => decide (p = ["outside", "f.js"])
  readdirSync := fun _ => none
  readFileSync := fun _ => none

/-- Concrete filesystem state with one theme data file and no user data
directory. -/
def fxSt : Lib.FsState where
  files := [(["proj", "node_modules", "eleventy-base-blog-template",
    "data", "site.js"], "theme-default")]
  dirs := [["proj", "node_modules", "eleventy-base-blog-template", "data"]]

/- ### Lemma layer -/

theorem lookupKV_setKV {κ α : Type} [DecidableEq κ]
    (m : List (κ × α)) (key : κ) (v : α) (q : κ) :
    lookupKV (setKV m key v) q = if q = key then some v else lookupKV m q := by
  induction m with
  | nil =>
    simp only [setKV, lookupKV]
    by_cases h : key = q
    · simp [h]
    · simp [h, Ne.symm h]
  | cons p rest ih =>
    obtain ⟨k, w⟩ := p
    by_cases hk : k = key
    · subst hk
      simp only [setKV, if_pos rfl, lookupKV]
      by_cases hq : k = q
      · simp [hq]
      · simp [hq, Ne.symm hq]
    · simp only [setKV, if_neg hk, lookupKV]
      by_cases hq : k = q
      · have hqk : ¬ q = key := fun h => hk (hq.trans h)
        simp [hq, hqk]
      · simp [hq, ih]

theorem lookupKV_eq_none_iff {κ α : Type} [DecidableEq κ]
    (m : List (κ × α)) (q : κ) :
    lookupKV m q = none ↔ q ∉ m.map Prod.fst := by
  induction m with
  | nil => simp [lookupKV]
  | cons p rest ih =>
    obtain ⟨k, w⟩ := p
    simp only [lookupKV, List.map_cons, List.mem_cons]
    by_cases h : k = q
    · simp [h]
    · simp [h, Ne.symm h, ih]

theorem lookupKV_isSome_iff {κ α : Type} [DecidableEq κ]
    (m : List (κ × α)) (q : κ) :
    (lookupKV m q).isSome = true ↔ q ∈ m.map Prod.fst := by
  rcases h : lookupKV m q with _ | v
  · rw [lookupKV_eq_none_iff] at h
    simp [h]
  · have : ¬ lookupKV m q = none := by simp [h]
    rw [lookupKV_eq_none_iff] at this
    simp [h, not_not.mp this]

theorem setKV_keys {κ α : Type} [DecidableEq κ]
    (m : List (κ × α)) (key : κ) (v : α) :
    (setKV m key v).map Prod.fst =
      if key ∈ m.map Prod.fst then m.map Prod.fst
      else m.map Prod.fst ++ [key] := by
  induction m with
  | nil => simp [setKV]
  | cons p rest ih =>
    obtain ⟨k, w⟩ := p
    by_cases h : k = key
    · subst h
      simp [setKV]
    · by_cases hm : key ∈ rest.map Prod.fst <;>
        simp [setKV, h, Ne.symm h, ih, hm]

theorem setKV_keys_nodup {κ α : Type} [DecidableEq κ]
    (m : List (κ × α)) (key : κ) (v : α)
    (h : (m.map Prod.fst).Nodup) :
    ((setKV m key v).map Prod.fst).Nodup := by
  rw [setKV_keys]
  by_cases hm : key ∈ m.map Prod.fst
  · simpa [hm]
  · simpa [hm, List.nodup_append] using h

/-- Folding `setKV` where the stored value depends only on the key:
the lookup after the fold is the value of the key when the key was scanned,
and the initial binding otherwise. -/
theorem foldl_setKV_lookup {α : Type} (f : String → α)
    (L : List String) (init : List (String × α)) (q : String) :
    lookupKV (L.foldl (fun m file => setKV m file (f file)) init) q =
      if q ∈ L then some (f q) else lookupKV init q := by
  induction L generalizing init with
  | nil => simp
  | cons x rest ih =>
    simp only [List.foldl_cons, List.mem_cons]
    rw [ih]
    by_cases hr : q ∈ rest
    · simp [hr]
    · by_cases hx : q = x
      · simp [hr, hx, lookupKV_setKV]
      · simp [hr, hx, lookupKV_setKV]

/-- Keys present never disappear under a `setKV` fold whose value may read
the map: the lookup stays defined. -/
theorem foldl_setKV_isSome {α : Type}
    (g : List (String × α) → String → α)
    (L : List String) (init : List (String × α)) (q : String)
    (h : (lookupKV init q).isSome = true) :
    (lookupKV (L.foldl (fun m file => setKV m file (g m file)) init) q).isSome
      = true := by
  induction L generalizing init with
  | nil => simpa using h
  | cons x rest ih =>
    simp only [List.foldl_cons]
    apply ih
    rw [lookupKV_setKV]
    by_cases hx : q = x <;> simp [hx, h]

/-- The user-pass of the cascade scan, abstracted: each scanned file is
stored with a value that depends on whether the file was already present.
If the key was present initially, the final binding uses the
already-present value. -/
theorem foldl_setKV_mem_init {α : Type} (g : String → Bool → α)
    (L : List String) (init : List (String × α)) (q : String)
    (h : (lookupKV init q).isSome = true) :
    lookupKV
        (L.foldl
          (fun m file => setKV m file (g file (lookupKV m file).isSome)) init)
        q =
      if q ∈ L then some (g q true) else lookupKV init q := by
  induction L generalizing init with
  | nil => simp
  | cons x rest ih =>
    simp only [List.foldl_cons, List.mem_cons]
    have hset : (lookupKV (setKV init x (g x (lookupKV init x).isSome)) q).isSome
        = true := by
      rw [lookupKV_setKV]
      by_cases hx : q = x <;> simp [hx, h]
    rw [ih _ hset]
    by_cases hr : q ∈ rest
    · simp [hr]
    · by_cases hx : q = x
      · subst hx
        simp [hr, lookupKV_setKV, h]
      · simp [hr, hx, lookupKV_setKV]

/-- Same fold with the key absent initially and a duplicate-free scan list:
the final binding uses the not-yet-present value. -/
theorem foldl_setKV_not_mem_init {α : Type} (g : String → Bool → α) :
    ∀ (L : List String) (init : List (String × α)) (q : String),
      L.Nodup → lookupKV init q = none →
      lookupKV
          (L.foldl
            (fun m file => setKV m file (g file (lookupKV m file).isSome)) init)
          q =
        if q ∈ L then some (g q false) else none := by
  intro L
  induction L with
  | nil =>
    intro init q _ h
    simp [h]
  | cons x rest ih =>
    intro init q hnd h
    simp only [List.foldl_cons, List.mem_cons]
    have hnd' := hnd.of_cons
    have hx_rest : x ∉ rest := (List.nodup_cons.mp hnd).1
    by_cases hx : q = x
    · subst hx
      have hset : (lookupKV (setKV init q (g q (lookupKV init q).isSome)) q).isSome
          = true := by simp [lookupKV_setKV]
      rw [foldl_setKV_mem_init _ _ _ _ hset]
      simp [hx_rest, lookupKV_setKV, h]
    · have hset : lookupKV (setKV init x (g x (lookupKV init x).isSome)) q
          = none := by simp [lookupKV_setKV, hx, h]
      rw [ih _ _ hnd' hset]
      simp [hx]

/-- Folding an association list into a map with `setKV`, transforming each
value: when the source keys are duplicate-free, lookup after the fold reads
through the source list first. -/
theorem foldl_setKV_pairs_lookup {α β : Type} (g : String → α → β) :
    ∀ (ps : List (String × α)) (init : List (String × β)) (q : String),
      (ps.map Prod.fst).Nodup →
      lookupKV (ps.foldl (fun m p => setKV m p.1 (g p.1 p.2)) init) q =
        match lookupKV ps q with
        | some v => some (g q v)
        | none => lookupKV init q := by
  intro ps
  induction ps with
  | nil =>
    intro init q _
    simp [lookupKV]
  | cons p rest ih =>
    intro init q hps
    obtain ⟨k, v⟩ := p
    rw [List.map_cons, List.nodup_cons] at hps
    obtain ⟨hk_rest, hnd'⟩ := hps
    simp only [List.foldl_cons, lookupKV]
    rw [ih _ _ hnd']
    by_cases hq : k = q
    · subst hq
      have hnone : lookupKV rest k = none :=
        (lookupKV_eq_none_iff _ _).mpr hk_rest
      simp [hnone, lookupKV_setKV]
    · rcases hrest : lookupKV rest q with _ | w
      · simp [hrest, hq, lookupKV_setKV, Ne.symm hq]
      · simp [hrest, hq]

/-- A `setKV` fold over a list of pairs keeps the key set duplicate-free. -/
theorem foldl_setKV_pairs_nodup {α β : Type} (g : String → α → β)
    (ps : List (String × α)) (init : List (String × β))
    (h : (init.map Prod.fst).Nodup) :
    (((ps.foldl (fun m p => setKV m p.1 (g p.1 p.2)) init)).map Prod.fst).Nodup := by
  induction ps generalizing init with
  | nil => simpa using h
  | cons p rest ih =>
    simp only [List.foldl_cons]
    exact ih _ (setKV_keys_nodup _ _ _ h)

/-- A `setKV` fold over file names (value possibly reading the map) keeps
the key set duplicate-free. -/
theorem foldl_setKV_names_nodup {α : Type}
    (g : List (String × α) → String → α)
    (L : List String) (init : List (String × α))
    (h : (init.map Prod.fst).Nodup) :
    (((L.foldl (fun m file => setKV m file (g m file)) init)).map Prod.fst).Nodup := by
  induction L generalizing init with
  | nil => simpa using h
  | cons x rest ih =>
    simp only [List.foldl_cons]
    exact ih _ (setKV_keys_nodup _ _ _ h)

/- ### Normalization lemmas for `path.join` -/

theorem normStack_append (s : List String) (l₁ l₂ : List String) :
    normStack s (l₁ ++ l₂) = normStack (normStack s l₁) l₂ := by
  induction l₁ generalizing s with
  | nil => simp [normStack]
  | cons x rest ih =>
    by_cases hx : x = "" ∨ x = "."
    · simp [normStack, hx, ih]
    · by_cases hdd : x = ".."
      · cases s <;> simp [normStack, hx, hdd, ih]
      · simp [normStack, hx, hdd, ih]

/-- On a list free of `".."` segments, normalization just filters out empty
and `"."` segments and pushes the rest. -/
theorem normStack_no_dotdot (l : List String) (h : ∀ x ∈ l, x ≠ "..")
    (s : List String) :
    normStack s l = (l.filter keepSeg).reverse ++ s := by
  induction l generalizing s with
  | nil => simp [normStack]
  | cons x rest ih =>
    have hx_dd : x ≠ ".." := h x (by simp)
    have hrest : ∀ y ∈ rest, y ≠ ".." := fun y hy => h y (by simp [hy])
    by_cases hx : x = "" ∨ x = "."
    · have : keepSeg x = false := by
        rcases hx with hx | hx <;> simp [keepSeg, hx]
      simp [normStack, hx, ih hrest, List.filter_cons, this]
    · have : keepSeg x = true := by
        simp only [keepSeg, Bool.not_eq_true']
        push_neg at hx
        simp [hx.1, hx.2]
      simp [normStack, hx, hx_dd, ih hrest, List.filter_cons, this]

/- ### Scan-directory lemmas -/

theorem scanDirectory_absent (fs : Fs) (d : List String)
    (filter : String → Bool) (h : dirAbsent fs d) :
    Core.scanDirectory fs d filter = [] := by
  rcases h with h | h <;> simp [Core.scanDirectory, h]

theorem scanDirectory_nodup (fs : Fs) (d : List String)
    (filter : String → Bool) (hWF : Fs.WF fs) :
    (Core.scanDirectory fs d filter).Nodup := by
  unfold Core.scanDirectory
  by_cases he : fs.existsSync d
  · rcases hl : fs.readdirSync d with _ | l
    · simp [he, hl]
    · simp only [he, if_true, hl]
      exact (hWF d l hl).filter filter
  · simp [he]

/-- Any fold whose step is a `setKV` keeps the key set duplicate-free. -/
theorem foldl_setKV_any_nodup {α β : Type} (key : β → String)
    (val : List (String × α) → β → α) :
    ∀ (L : List β) (init : List (String × α)),
      (init.map Prod.fst).Nodup →
      (((L.foldl (fun m b => setKV m (key b) (val m b)) init)).map
        Prod.fst).Nodup := by
  intro L
  induction L with
  | nil =>
    intro init h
    simpa using h
  | cons x rest ih =>
    intro init h
    simp only [List.foldl_cons]
    exact ih _ (setKV_keys_nodup _ _ _ h)

/- ### String helper lemmas -/

theorem append_ne_empty_left (a b : String) (h : a.data ≠ []) :
    a ++ b ≠ "" := by
  intro hc
  apply h
  have hdata := congrArg String.data hc
  simp [String.data_append] at hdata
  exact hdata.1

/- ### Monotonicity of the data-merge loop -/

theorem mergeStep_mono (t u : List String) (s : Lib.FsState)
    (file : String) (p : List String)
    (h : s.existsSync p = true) :
    (Lib.mergeStep t u s file).existsSync p = true := by
  unfold Lib.mergeStep
  by_cases hc : s.existsSync (joinPath u [file]) = true
  · simp [hc, h]
  · rw [if_neg hc]
    unfold Lib.FsState.existsSync at h ⊢
    unfold Lib.copyFile Lib.mkdirRecursive
    simp only [lookupKV_setKV]
    rcases Bool.or_eq_true _ _ |>.mp h with hf | hd
    · by_cases hp : p = joinPath u [file] <;> simp [hp, hf]
    · simp only [decide_eq_true_eq] at hd
      by_cases hp : p = joinPath u [file] <;>
        simp [hp, List.mem_append, hd]

theorem foldl_mergeStep_mono (t u : List String) :
    ∀ (L : List String) (s : Lib.FsState) (p : List String),
      s.existsSync p = true →
      ((L.foldl (Lib.mergeStep t u) s)).existsSync p = true := by
  intro L
  induction L with
  | nil =>
    intro s p h
    simpa using h
  | cons x rest ih =>
    intro s p h
    simp only [List.foldl_cons]
    exact ih _ _ (mergeStep_mono t u s x p h)

theorem mergeStep_creates (t u : List String) (s : Lib.FsState)
    (file : String) :
    (Lib.mergeStep t u s file).existsSync (joinPath u [file]) = true := by
  unfold Lib.mergeStep
  by_cases hc : s.existsSync (joinPath u [file]) = true
  · simp [hc]
  · rw [if_neg hc]
    unfold Lib.FsState.existsSync Lib.copyFile
    simp [lookupKV_setKV]

theorem foldl_mergeStep_creates (t u : List String) :
    ∀ (L : List String) (s : Lib.FsState) (f : String),
      f ∈ L →
      ((L.foldl (Lib.mergeStep t u) s)).existsSync (joinPath u [f]) = true := by
  intro L
  induction L with
  | nil =>
    intro s f h
    cases h
  | cons x rest ih =>
    intro s f h
    simp only [List.foldl_cons]
    rcases List.mem_cons.mp h with h | h
    · subst h
      exact foldl_mergeStep_mono t u rest _ _ (mergeStep_creates t u s f)
    · exact ih _ _ h

set_option maxRecDepth 8192 in
/-- The custom feature error message is never the empty string, so the
`errorMessage || default` fallback keeps it. -/
theorem createFeatureErrorMessage_ne_empty (name : String)
    (cfg : OverrideCfg) : Lib.createFeatureErrorMessage name cfg ≠ "" := by
  intro hc
  have hd := congrArg String.data hc
  simp only [Lib.createFeatureErrorMessage, String.data_append] at hd
  simp at hd

/- ### Claim theorems -/

/-- C1: single-resource resolution checks the user path first: whenever a
file exists at the computed user path, `resolveResource` returns that path
with source `user` — in particular it never returns source `theme` there,
whether or not the theme file also exists. -/
theorem resolveResource_user_first (fs : Fs) (o : Core.ResolveOptions)
    (h : fs.existsSync (Core.ResolveOptions.paths o).user = true) :
    Core.resolveResource fs o =
      .ok (some { path := (Core.ResolveOptions.paths o).user
                  source := .user }) := by
  simp [Core.resolveResource, h]

/-- Witness for C1: a concrete oracle on which the user file exists. -/
theorem resolveResource_user_first_witness :
    Core.resolveResource fxUser
        { projectRoot := ["proj"], themeName := "theme-pkg"
          resourceType := .features, filename := "a.js" } =
      .ok (some { path := (Core.ResolveOptions.paths
          { projectRoot := ["proj"], themeName := "theme-pkg"
            resourceType := .features, filename := "a.js" }).user
                  source := .user }) :=
  resolveResource_user_first fxUser
    { projectRoot := ["proj"], themeName := "theme-pkg"
      resourceType := .features, filename := "a.js" } (by decide)

/-- C10: a non-NotFound result of single-resource resolution is tagged
`user` or `theme`, never `override`; the `override` tag arises only in the
catalog-building scan. -/
theorem resolveResource_never_override (fs : Fs) (o : Core.ResolveOptions)
    (r : Resolved) (h : Core.resolveResource fs o = .ok (some r)) :
    r.source = .user ∨ r.source = .theme := by
  unfold Core.resolveResource at h
  by_cases h1 : fs.existsSync (Core.ResolveOptions.paths o).user = true
  · simp only [h1, if_true] at h
    cases h
    exact Or.inl rfl
  · by_cases h2 : fs.existsSync (Core.ResolveOptions.paths o).theme = true
    · simp only [h1, h2, if_true, if_false] at h
      cases h
      exact Or.inr rfl
    · by_cases h3 : o.throwOnMissing = true <;>
        simp [h1, h2, h3] at h

/-- Witness for C10: the theorem applied to a concrete resolution. -/
theorem resolveResource_never_override_witness :
    (Resolved.mk ["proj", "overrides", "layouts", "post.njk"] .user).source
        = .user ∨
    (Resolved.mk ["proj", "overrides", "layouts", "post.njk"] .user).source
        = .theme :=
  resolveResource_never_override fxUser
    { projectRoot := ["proj"], themeName := "theme-pkg"
      resourceType := .layouts, filename := "post.njk" }
    (Resolved.mk ["proj", "overrides", "layouts", "post.njk"] .user)
    rfl

/-- C2: a name listed on both sides of the scan yields exactly one catalog
entry (the key set of the catalog is duplicate-free), tagged `override`,
with the user path — the theme entry is replaced. -/
theorem scanWithCascade_collision_override (fs : Fs) (o : Core.ScanOptions)
    (name : String)
    (ht : name ∈ Core.scanDirectory fs (Core.ScanOptions.paths o).themeDir
      o.filter)
    (hu : name ∈ Core.scanDirectory fs (Core.ScanOptions.paths o).userDir
      o.filter) :
    lookupKV (Core.scanWithCascade fs o) name =
      some { name := name, source := .override
             path := joinPath (Core.ScanOptions.paths o).userDir [name] } ∧
    ((Core.scanWithCascade fs o).map Prod.fst).Nodup := by
  constructor
  · have hth := foldl_setKV_lookup
      (Core.themePassEntry (Core.ScanOptions.paths o).themeDir)
      (Core.scanDirectory fs (Core.ScanOptions.paths o).themeDir o.filter)
      [] name
    rw [if_pos ht] at hth
    have hsome : (lookupKV
        ((Core.scanDirectory fs (Core.ScanOptions.paths o).themeDir
          o.filter).foldl
          (fun items file =>
            setKV items file
              (Core.themePassEntry (Core.ScanOptions.paths o).themeDir file))
          []) name).isSome = true := by
      rw [hth]
      rfl
    have huser := foldl_setKV_mem_init
      (Core.userPassEntry (Core.ScanOptions.paths o).userDir)
      (Core.scanDirectory fs (Core.ScanOptions.paths o).userDir o.filter)
      _ name hsome
    rw [if_pos hu] at huser
    exact huser
  · exact foldl_setKV_any_nodup _ _ _ _
      (foldl_setKV_any_nodup _ _ _ [] (by simp))

/-- Witness for C2: both data directories list `site.js`. -/
theorem scanWithCascade_collision_override_witness :
    lookupKV (Core.scanWithCascade fxData
        { projectRoot := ["proj"], themeName := "theme-pkg"
          resourceType := .data }) "site.js" =
      some { name := "site.js", source := .override
             path := joinPath (Core.ScanOptions.paths
               { projectRoot := ["proj"], themeName := "theme-pkg"
                 resourceType := .data }).userDir ["site.js"] } ∧
    ((Core.scanWithCascade fxData
        { projectRoot := ["proj"], themeName := "theme-pkg"
          resourceType := .data }).map Prod.fst).Nodup :=
  scanWithCascade_collision_override fxData
    { projectRoot := ["proj"], themeName := "theme-pkg"
      resourceType := .data } "site.js" (by decide) (by decide)

/-- C4: a missing or unreadable directory contributes no entries to the
scan and raises nothing (the function is total): with both sides absent
the catalog is empty; with the theme side absent every entry is a user
entry; with the user side absent every entry is a theme entry. -/
theorem scanWithCascade_missing_dirs (fs : Fs) (o : Core.ScanOptions)
    (hWF : Fs.WF fs) :
    (dirAbsent fs (Core.ScanOptions.paths o).themeDir →
      dirAbsent fs (Core.ScanOptions.paths o).userDir →
      Core.scanWithCascade fs o = []) ∧
    (dirAbsent fs (Core.ScanOptions.paths o).themeDir →
      ∀ q, lookupKV (Core.scanWithCascade fs o) q =
        if q ∈ Core.scanDirectory fs (Core.ScanOptions.paths o).userDir
            o.filter
        then some (Core.userPassEntry (Core.ScanOptions.paths o).userDir q
          false)
        else none) ∧
    (dirAbsent fs (Core.ScanOptions.paths o).userDir →
      ∀ q, lookupKV (Core.scanWithCascade fs o) q =
        if q ∈ Core.scanDirectory fs (Core.ScanOptions.paths o).themeDir
            o.filter
        then some (Core.themePassEntry (Core.ScanOptions.paths o).themeDir q)
        else none) := by
  refine ⟨?_, ?_, ?_⟩
  · intro hth hus
    unfold Core.scanWithCascade
    rw [scanDirectory_absent fs _ o.filter hth,
      scanDirectory_absent fs _ o.filter hus]
    rfl
  · intro hth q
    unfold Core.scanWithCascade
    rw [scanDirectory_absent fs _ o.filter hth]
    exact foldl_setKV_not_mem_init
      (Core.userPassEntry (Core.ScanOptions.paths o).userDir) _ _ q
      (scanDirectory_nodup fs _ o.filter hWF) rfl
  · intro hus q
    unfold Core.scanWithCascade
    rw [scanDirectory_absent fs _ o.filter hus]
    exact foldl_setKV_lookup
      (Core.themePassEntry (Core.ScanOptions.paths o).themeDir) _ [] q

/-- Witness for C4: the empty oracle, both sides absent. -/
theorem scanWithCascade_missing_dirs_witness :
    Core.scanWithCascade fxNone
        { projectRoot := ["proj"], themeName := "theme-pkg"
          resourceType := .data } = [] :=
  (scanWithCascade_missing_dirs fxNone
      { projectRoot := ["proj"], themeName := "theme-pkg"
        resourceType := .data }
      (fun _ _ h => Option.noConfusion h)).1
    (Or.inl rfl) (Or.inl rfl)

/-- C5 (amended): `buildPaths` does not reject `..` segments — it only
applies `path.join` normalization.  For a name whose segments are free of
`..` the computed user and theme paths stay inside the user/theme roots
(they extend them by the cleaned name segments); a name containing `..`
can escape, as the counterexample shows. -/
theorem buildPaths_no_dotdot_stays_within (projectRoot : List String)
    (themeName : String) (cfg : OverrideCfg) (rt : ResourceType)
    (filename : String)
    (h : ∀ x ∈ splitPath filename, x ≠ "..") :
    (Core.buildPaths projectRoot themeName cfg rt filename).user =
      (Core.buildPaths projectRoot themeName cfg rt filename).userDir
        ++ (splitPath filename).filter keepSeg ∧
    (Core.buildPaths projectRoot themeName cfg rt filename).theme =
      (Core.buildPaths projectRoot themeName cfg rt filename).themeDir
        ++ (splitPath filename).filter keepSeg := by
  constructor <;>
  · simp only [Core.buildPaths, joinPath, normPath, List.map_cons,
      List.map_nil, List.flatten_cons, List.flatten_nil, List.append_nil,
      ← List.append_assoc]
    rw [normStack_append, normStack_no_dotdot (splitPath filename) h,
      List.reverse_append, List.reverse_reverse]

/-- Witness for the amended C5 at a plain file name. -/
theorem buildPaths_no_dotdot_stays_within_witness :
    (Core.buildPaths ["proj"] "theme-pkg" emptyCfg .data "site.js").user =
      (Core.buildPaths ["proj"] "theme-pkg" emptyCfg .data
        "site.js").userDir ++ (splitPath "site.js").filter keepSeg ∧
    (Core.buildPaths ["proj"] "theme-pkg" emptyCfg .data "site.js").theme =
      (Core.buildPaths ["proj"] "theme-pkg" emptyCfg .data
        "site.js").themeDir ++ (splitPath "site.js").filter keepSeg :=
  buildPaths_no_dotdot_stays_within ["proj"] "theme-pkg" emptyCfg .data
    "site.js" (by decide)

/-- Counterexample to C5 as stated: the name `../../../etc/passwd` makes
the computed user path leave both the user root and the project root —
nothing rejects the `..` segments. -/
theorem buildPaths_dotdot_escape_counterexample :
    (Core.buildPaths ["proj"] "theme-pkg" emptyCfg .data
      "../../../etc/passwd").user = ["etc", "passwd"] ∧
    startsWithSegs
      (Core.buildPaths ["proj"] "theme-pkg" emptyCfg .data
        "../../../etc/passwd").userDir
      (Core.buildPaths ["proj"] "theme-pkg" emptyCfg .data
        "../../../etc/passwd").user = false ∧
    startsWithSegs ["proj"]
      (Core.buildPaths ["proj"] "theme-pkg" emptyCfg .data
        "../../../etc/passwd").user = false :=
  ⟨rfl, rfl, rfl⟩

/-- C6 (amended): a configured override directory is used verbatim — no
check, no warning channel exists: `getOverridePath` returns the configured
string, `buildPaths` joins it below the project root (which can escape
it), and resolution follows the resulting path whenever a file is there. -/
theorem overridePath_used_verbatim (fs : Fs) (o : Core.ResolveOptions)
    (d : String)
    (hc : o.resolvedOverridePaths o.resourceType = some d) (hd : d ≠ "")
    (hu : fs.existsSync (Core.ResolveOptions.paths o).user = true) :
    Core.getOverridePath o.resolvedOverridePaths o.resourceType = d ∧
    (Core.ResolveOptions.paths o).user =
      joinPath o.projectRoot [d, o.filename] ∧
    Core.resolveResource fs o =
      .ok (some { path := (Core.ResolveOptions.paths o).user
                  source := .user }) := by
  have h1 : Core.getOverridePath o.resolvedOverridePaths o.resourceType = d := by
    simp [Core.getOverridePath, jsOrD, hc, hd]
  refine ⟨h1, ?_, ?_⟩
  · show (Core.buildPaths o.projectRoot o.themeName o.resolvedOverridePaths
      o.resourceType o.filename).user = _
    unfold Core.buildPaths
    rw [h1]
  · simp [Core.resolveResource, hu]

/-- Witness for the amended C6 at the escaping configuration
`features := "../outside"`. -/
theorem overridePath_used_verbatim_witness :
    Core.getOverridePath (oneCfg .features "../outside") .features
        = "../outside" ∧
    (Core.ResolveOptions.paths
        { projectRoot := ["proj"], themeName := "theme-pkg"
          resolvedOverridePaths := oneCfg .features "../outside"
          resourceType := .features, filename := "f.js" }).user =
      joinPath ["proj"] ["../outside", "f.js"] ∧
    Core.resolveResource fxOutside
        { projectRoot := ["proj"], themeName := "theme-pkg"
          resolvedOverridePaths := oneCfg .features "../outside"
          resourceType := .features, filename := "f.js" } =
      .ok (some { path := (Core.ResolveOptions.paths
          { projectRoot := ["proj"], themeName := "theme-pkg"
            resolvedOverridePaths := oneCfg .features "../outside"
            resourceType := .features, filename := "f.js" }).user
                  source := .user }) :=
  overridePath_used_verbatim fxOutside
    { projectRoot := ["proj"], themeName := "theme-pkg"
      resolvedOverridePaths := oneCfg .features "../outside"
      resourceType := .features, filename := "f.js" }
    "../outside" rfl (by decide) rfl

/-- Counterexample to C6 as stated: with the override directory configured
as `../outside`, resolution follows a path outside the project root and no
MisconfiguredPath warning exists anywhere in the result. -/
theorem overridePath_escape_counterexample :
    Core.resolveResource fxOutside
        { projectRoot := ["proj"], themeName := "theme-pkg"
          resolvedOverridePaths := oneCfg .features "../outside"
          resourceType := .features, filename := "f.js" } =
      .ok (some { path := ["outside", "f.js"], source := .user }) ∧
    startsWithSegs ["proj"] ["outside", "f.js"] = false :=
  ⟨rfl, rfl⟩

/-- C7: the feature-entry map always contains the key `main` (bound to the
user script entry point when no feature claims it), and a discovered
feature literally named `main` silently overwrites the fixed entry with
its own path. -/
theorem getFeatureEntries_main_key (fs : Fs) (projectRoot : List String)
    (cfg : OverrideCfg) :
    (lookupKV (Lib.getFeatureEntries fs projectRoot cfg) "main").isSome
        = true ∧
    (∀ info : Entry,
      lookupKV (Lib.getAvailableFeatures fs projectRoot cfg) "main"
          = some info →
      lookupKV (Lib.getFeatureEntries fs projectRoot cfg) "main"
          = some info.path) := by
  have hnd : ((Lib.getAvailableFeatures fs projectRoot cfg).map
      Prod.fst).Nodup := by
    simp only [Lib.getAvailableFeatures]
    exact foldl_setKV_any_nodup _ _ _ [] (by simp)
  have main_lookup : ∀ info : Entry,
      lookupKV (Lib.getAvailableFeatures fs projectRoot cfg) "main"
          = some info →
      lookupKV (Lib.getFeatureEntries fs projectRoot cfg) "main"
          = some info.path := by
    intro info hF
    have hlk := foldl_setKV_pairs_lookup (fun _ (v : Entry) => v.path)
      (Lib.getAvailableFeatures fs projectRoot cfg)
      [("main", joinPath projectRoot
        [jsOrD (cfg .scripts) (Lib.metadata.defaultOverridePaths .scripts),
          "main.js"])]
      "main" hnd
    rw [hF] at hlk
    exact hlk
  refine ⟨?_, main_lookup⟩
  rcases hF : lookupKV (Lib.getAvailableFeatures fs projectRoot cfg) "main"
    with _ | info
  · have hlk := foldl_setKV_pairs_lookup (fun _ (v : Entry) => v.path)
      (Lib.getAvailableFeatures fs projectRoot cfg)
      [("main", joinPath projectRoot
        [jsOrD (cfg .scripts) (Lib.metadata.defaultOverridePaths .scripts),
          "main.js"])]
      "main" hnd
    rw [hF] at hlk
    have h2 : lookupKV (Lib.getFeatureEntries fs projectRoot cfg) "main" =
        some (joinPath projectRoot
          [jsOrD (cfg .scripts) (Lib.metadata.defaultOverridePaths .scripts),
            "main.js"]) := hlk.trans rfl
    simp [h2]
  · have h2 := main_lookup info hF
    simp [h2]

/-- Witness for C7: a user feature file named `main.js` overwrites the
fixed entry (which would otherwise point into `overrides/scripts`). -/
theorem getFeatureEntries_main_key_witness :
    lookupKV (Lib.getFeatureEntries fxMain ["proj"] emptyCfg) "main" =
      some ["proj", "overrides", "features", "main.js"] :=
  (getFeatureEntries_main_key fxMain ["proj"] emptyCfg).2
    { name := "main", source := .user
      path := ["proj", "overrides", "features", "main.js"] } rfl

/-- C8: `isValid` equals `errors.isEmpty` — warnings never enter into it —
and a missing theme package root short-circuits validation, returning
immediately with exactly that one error and no warnings. -/
theorem validateTheme_isValid_iff_errors (fs : Fs)
    (projectRoot : List String) (cfg : OverrideCfg) :
    ((Lib.validateTheme fs projectRoot cfg).isValid =
      (Lib.validateTheme fs projectRoot cfg).errors.isEmpty) ∧
    (fs.existsSync (joinPath projectRoot ["node_modules", Lib.metadata.name])
        = false →
      Lib.validateTheme fs projectRoot cfg =
        { errors := [Lib.themeNotFoundMsg (joinPath projectRoot
            ["node_modules", Lib.metadata.name])]
          warnings := [], isValid := false }) := by
  constructor
  · by_cases h : fs.existsSync
        (joinPath projectRoot ["node_modules", Lib.metadata.name]) = false
    · simp [Lib.validateTheme, h]
    · simp only [Lib.validateTheme, if_neg h]
  · intro h
    simp [Lib.validateTheme, h]

/-- Witness for C8: the empty oracle has no theme package installed. -/
theorem validateTheme_isValid_iff_errors_witness :
    Lib.validateTheme fxNone ["proj"] emptyCfg =
      { errors := [Lib.themeNotFoundMsg (joinPath ["proj"]
          ["node_modules", Lib.metadata.name])]
        warnings := [], isValid := false } :=
  (validateTheme_isValid_iff_errors fxNone ["proj"] emptyCfg).2 rfl

/-- C3 (amended): with neither file present, `resolveResource` returns
null when not strict and throws when strict; with no custom message the
thrown message lists both checked paths.  `resolveFeaturePath` of a
missing feature does throw, but with the custom feature message (feature
name, available features, remediation steps), which — as the
counterexample shows — does not contain the checked absolute paths. -/
theorem resolveResource_notfound_behavior (fs : Fs)
    (o : Core.ResolveOptions)
    (hu : fs.existsSync (Core.ResolveOptions.paths o).user = false)
    (ht : fs.existsSync (Core.ResolveOptions.paths o).theme = false) :
    (o.throwOnMissing = false → Core.resolveResource fs o = .ok none) ∧
    (o.throwOnMissing = true → o.errorMessage = none →
      Core.resolveResource fs o =
        .error (Core.notFoundMessage o.filename o.resourceType
          (Core.ResolveOptions.paths o)) ∧
      ContainsStr
        (Core.notFoundMessage o.filename o.resourceType
          (Core.ResolveOptions.paths o))
        (renderPath (Core.ResolveOptions.paths o).user) ∧
      ContainsStr
        (Core.notFoundMessage o.filename o.resourceType
          (Core.ResolveOptions.paths o))
        (renderPath (Core.ResolveOptions.paths o).theme)) ∧
    (∀ (fs2 : Fs) (name : String) (root : List String) (cfg : OverrideCfg),
      fs2.existsSync (Lib.buildPaths root cfg .features
        (name ++ ".js")).user = false →
      fs2.existsSync (Lib.buildPaths root cfg .features
        (name ++ ".js")).theme = false →
      Lib.resolveFeaturePath fs2 name root cfg =
        .error (Lib.createFeatureErrorMessage name cfg)) := by
  refine ⟨?_, ?_, ?_⟩
  · intro h
    simp [Core.resolveResource, hu, ht, h]
  · intro h he
    refine ⟨?_, ?_, ?_⟩
    · simp [Core.resolveResource, hu, ht, h, he, jsOrD]
    · refine ⟨"Resource \"" ++ o.filename ++ "\" not found in "
        ++ o.resourceType.jsName ++ "\nChecked:\n  - ",
        "\n  - " ++ renderPath (Core.ResolveOptions.paths o).theme, ?_⟩
      simp [Core.notFoundMessage, String.append_assoc]
    · refine ⟨"Resource \"" ++ o.filename ++ "\" not found in "
        ++ o.resourceType.jsName ++ "\nChecked:\n  - "
        ++ renderPath (Core.ResolveOptions.paths o).user ++ "\n  - ",
        "", ?_⟩
      simp [Core.notFoundMessage, String.append_assoc, String.append_empty]
  · intro fs2 name root cfg hu2 ht2
    unfold Lib.resolveFeaturePath
    have hres : Lib.resolveResource fs2
        { projectRoot := root, overridePaths := cfg
          resourceType := .features
          filename := name ++ ".js", throwOnMissing := true
          errorMessage := some (Lib.createFeatureErrorMessage name cfg) } =
        .error (Lib.createFeatureErrorMessage name cfg) := by
      simp [Lib.resolveResource, hu2, ht2, jsOrD,
        createFeatureErrorMessage_ne_empty name cfg]
    rw [hres]

/-- Witness for the amended C3 at the empty oracle: null without strict
mode, the both-paths default message with it, and the custom feature
message from `resolveFeaturePath`. -/
theorem resolveResource_notfound_behavior_witness :
    Core.resolveResource fxNone
        { projectRoot := ["proj"], themeName := "theme-pkg"
          resourceType := .data, filename := "site.js" } = .ok none ∧
    Lib.resolveFeaturePath fxNone "nonexistent" ["proj"] emptyCfg =
      .error (Lib.createFeatureErrorMessage "nonexistent" emptyCfg) :=
  ⟨(resolveResource_notfound_behavior fxNone
      { projectRoot := ["proj"], themeName := "theme-pkg"
        resourceType := .data, filename := "site.js" } rfl rfl).1 rfl,
   (resolveResource_notfound_behavior fxNone
      { projectRoot := ["proj"], themeName := "theme-pkg"
        resourceType := .data, filename := "site.js" } rfl rfl).2.2
     fxNone "nonexistent" ["proj"] emptyCfg rfl rfl⟩

set_option maxRecDepth 100000 in
/-- Counterexample to C3 as stated: `resolveFeaturePath("nonexistent")` in
strict mode throws, but its message contains neither the checked absolute
user path nor the checked absolute theme path. -/
theorem resolveFeaturePath_message_counterexample :
    Lib.resolveFeaturePath fxNone "nonexistent" ["proj"] emptyCfg =
      .error (Lib.createFeatureErrorMessage "nonexistent" emptyCfg) ∧
    strHasSub (Lib.createFeatureErrorMessage "nonexistent" emptyCfg)
      (renderPath (Lib.buildPaths ["proj"] emptyCfg .features
        "nonexistent.js").user) = false ∧
    strHasSub (Lib.createFeatureErrorMessage "nonexistent" emptyCfg)
      (renderPath (Lib.buildPaths ["proj"] emptyCfg .features
        "nonexistent.js").theme) = false := by
  refine ⟨rfl, ?_, ?_⟩ <;> decide

/-- C9 (amended): resolution, scanning and validation are pure reads, but
`mergeDataFiles` is not side-effect-free: when the theme data directory
exists, every file it lists ends up existing at the user data path — the
function creates the user data directory and copies the theme defaults
that the user does not already have. -/
theorem mergeDataFiles_copies_theme_defaults (st : Lib.FsState)
    (projectRoot : List String) (cfg : OverrideCfg) (f : String)
    (hth : st.existsSync (joinPath projectRoot
      ["node_modules", Lib.metadata.name, Lib.metadata.paths .data]) = true)
    (hf : f ∈ st.readdirSync (joinPath projectRoot
      ["node_modules", Lib.metadata.name, Lib.metadata.paths .data])) :
    ((Lib.mergeDataFiles st projectRoot cfg).1).existsSync
      (joinPath (joinPath projectRoot
        [jsOrD (cfg .data) (Lib.metadata.defaultOverridePaths .data)]) [f])
      = true := by
  unfold Lib.mergeDataFiles
  rw [if_neg (by simp [hth])]
  exact foldl_mergeStep_creates _ _ _ st f hf

/-- Witness for the amended C9: the concrete state gains the copied theme
data file at the user data path. -/
theorem mergeDataFiles_copies_theme_defaults_witness :
    ((Lib.mergeDataFiles fxSt ["proj"] emptyCfg).1).existsSync
      (joinPath (joinPath ["proj"]
        [jsOrD (emptyCfg .data) (Lib.metadata.defaultOverridePaths .data)])
        ["site.js"]) = true :=
  mergeDataFiles_copies_theme_defaults fxSt ["proj"] emptyCfg "site.js"
    (by decide) (by decide)

set_option maxRecDepth 100000 in
/-- Counterexample to C9 as stated: `mergeDataFiles` changes the
filesystem — after the call the user data file exists (with the theme
file's content) although it did not exist before. -/
theorem mergeDataFiles_mutates_counterexample :
    (Lib.mergeDataFiles fxSt ["proj"] emptyCfg).1 ≠ fxSt ∧
    lookupKV ((Lib.mergeDataFiles fxSt ["proj"] emptyCfg).1).files
      ["proj", "content", "_data", "site.js"] = some "theme-default" ∧
    lookupKV fxSt.files ["proj", "content", "_data", "site.js"] = none := by
  refine ⟨by decide, rfl, rfl⟩

end Themer
